import Mathlib

/-!
Shallow embedding of `scripts/privacy-scan.py`, a line-oriented static
scanner for PII handling issues, together with proofs about its pipeline:
line scanning against a fixed regex rule catalog, deduplication,
severity filtering, sorting, report rendering and the exit code.

Python regexes are embedded as a small regex AST (`Regex`) with an
executable backtracking matcher whose truthiness agrees with
`re.search`: a search succeeds iff some start position admits some
backtracking path, which is exactly what the code tests with
`if re.search(pattern, line_lower):`.
-/

namespace PrivacyScan

/-- The `Severity` enum of the scanner (`critical`, `high`, `medium`, `low`). -/
inductive Severity where
  | critical
  | high
  | medium
  | low
deriving DecidableEq, Repr

/-- `Severity.value` strings as used in the Python `Enum`. -/
def Severity.value : Severity → String
  | .critical => "critical"
  | .high => "high"
  | .medium => "medium"
  | .low => "low"

/-- `sev.upper()` on the severity string, used by the text report summary. -/
def Severity.upperStr : Severity → String
  | .critical => "CRITICAL"
  | .high => "HIGH"
  | .medium => "MEDIUM"
  | .low => "LOW"

/-- Position of the severity in `['critical', 'high', 'medium', 'low']`,
i.e. `severity_order.index(f.severity)` in `filter_by_severity` and the
rank used by the sort key in `main`. -/
def sevRank : Severity → Nat
  | .critical => 0
  | .high => 1
  | .medium => 2
  | .low => 3

/-- The `Finding` dataclass. The `severity` field is stored as the enum
value; the Python code always stores one of the four `Severity.value`
strings there (the data-model invariant of the spec). -/
structure Finding where
  file : String
  line : Nat
  severity : Severity
  category : String
  description : String
  code_snippet : String
  recommendation : String
deriving DecidableEq, Repr

/-! ## Character classes and the regex engine -/

/-- `\w` without `re.ASCII` is Unicode-aware; all rule tokens and all
inputs considered here are ASCII, where it is `[a-zA-Z0-9_]`. -/
def isWordChar (c : Char) : Bool :=
  c.isAlpha || c.isDigit || c == '_'

/-- `\s`: Python regex whitespace (ASCII part). -/
def isSpaceChar (c : Char) : Bool :=
  c == ' ' || c == '\t' || c == '\n' || c == '\r' || c == '\x0b' || c == '\x0c'

/-- Single-character classes occurring in the scanner's patterns. -/
inductive CC where
  | word
  | space
  | any
  | notCh (c : Char)
  | oneOf (cs : List Char)
  | ch (c : Char)
deriving DecidableEq

/-- Does character `c` belong to the class? `.` does not match a newline
(no `re.DOTALL`); a negated class such as `[^)]` matches everything else. -/
def CC.test : CC → Char → Bool
  | .word, c => isWordChar c
  | .space, c => isSpaceChar c
  | .any, c => c != '\n'
  | .notCh d, c => c != d
  | .oneOf cs, c => cs.contains c
  | .ch d, c => c == d

/-- Regex AST: empty string, one-character class, concatenation,
alternation, Kleene star of a character class (the only starred
subexpressions in the catalog are character classes), the zero-width
word boundary `\b`, and negative lookahead `(?!r)`. -/
inductive Regex where
  | eps
  | cls (c : CC)
  | seq (a b : Regex)
  | alt (a b : Regex)
  | star (c : CC)
  | wordB
  | nlook (r : Regex)

/-- `\b`: the previous character (if any) and the next character (if any)
disagree on word-char-ness. -/
def atBoundary (prev : Option Char) (s : List Char) : Bool :=
  let pw := match prev with | some c => isWordChar c | none => false
  let nw := match s with | x :: _ => isWordChar x | [] => false
  pw != nw

/-- Backtracking run of `c*`: try the continuation after consuming each
possible number of class characters. -/
def starRun (c : CC) (prev : Option Char) (s : List Char)
    (k : Option Char → List Char → Bool) : Bool :=
  k prev s ||
    match s with
    | [] => false
    | x :: xs => CC.test c x && starRun c (some x) xs k

/-- CPS backtracking matcher. `r.run prev s k` is true iff some way of
matching `r` against a prefix of `s` (with `prev` the character just
before `s`, for `\b`) leaves a remainder on which `k` succeeds. This is
the existential ("does any backtracking path succeed") semantics, which
is what the truthiness of `re.search` observes. -/
def Regex.run : Regex → Option Char → List Char → (Option Char → List Char → Bool) → Bool
  | .eps, prev, s, k => k prev s
  | .cls c, _, s, k =>
      match s with
      | [] => false
      | x :: xs => CC.test c x && k (some x) xs
  | .seq a b, prev, s, k => a.run prev s (fun p r => b.run p r k)
  | .alt a b, prev, s, k => a.run prev s k || b.run prev s k
  | .star c, prev, s, k => starRun c prev s k
  | .wordB, prev, s, k => atBoundary prev s && k prev s
  | .nlook r, prev, s, k => !(r.run prev s (fun _ _ => true)) && k prev s

/-- Try a match at the current position, then at each later one. -/
def searchAux (r : Regex) (prev : Option Char) (s : List Char) : Bool :=
  r.run prev s (fun _ _ => true) ||
    match s with
    | [] => false
    | x :: xs => searchAux r (some x) xs

/-- `re.search(r, s) is not None`. -/
def reSearch (r : Regex) (s : List Char) : Bool :=
  searchAux r none s

/-! ## Pattern construction helpers -/

/-- Concatenation of a list of regexes. -/
def seqs (rs : List Regex) : Regex :=
  rs.foldr Regex.seq .eps

/-- A literal string. -/
def litStr (s : String) : Regex :=
  seqs (s.data.map (fun c => Regex.cls (.ch c)))

/-- An alternation `(t1|t2|...)` of literal tokens. -/
def tokenAlt (ts : List String) : Regex :=
  match ts.map litStr with
  | [] => .eps
  | r :: rs => rs.foldl Regex.alt r

/-- `c+` for a character class. -/
def plusC (c : CC) : Regex :=
  .seq (.cls c) (.star c)

/-- `c?` for a character class. -/
def optC (c : CC) : Regex :=
  .alt (.cls c) .eps

/-! ## The rule catalog -/

/-- A PII field pattern `\b(tok1|tok2|...)\b`. -/
def fieldPat (ts : List String) : Regex :=
  seqs [.wordB, tokenAlt ts, .wordB]

/-- `PII_FIELD_PATTERNS`: pattern, PII type label, severity. -/
def PII_FIELD_PATTERNS : List (Regex × String × Severity) :=
  [ (fieldPat ["ssn", "social_security", "social_security_number"], "SSN", .critical),
    (fieldPat ["credit_card", "card_number", "cc_number", "ccn"], "Credit Card", .critical),
    (fieldPat ["password", "passwd", "pwd", "secret", "api_key", "apikey", "token"], "Credential", .critical),
    (fieldPat ["passport", "passport_number", "passport_no"], "Passport", .critical),
    (fieldPat ["driver_license", "drivers_license", "dl_number"], "Driver License", .critical),
    (fieldPat ["bank_account", "account_number", "routing_number", "iban"], "Financial", .critical),
    (fieldPat ["email", "email_address", "e_mail"], "Email", .high),
    (fieldPat ["phone", "phone_number", "mobile", "telephone", "cell"], "Phone", .high),
    (fieldPat ["address", "street_address", "home_address", "mailing_address"], "Address", .high),
    (fieldPat ["birth_date", "dob", "date_of_birth", "birthday"], "Birth Date", .high),
    (fieldPat ["first_name", "last_name", "full_name", "surname", "given_name"], "Name", .medium),
    (fieldPat ["ip_address", "ip_addr", "client_ip", "user_ip"], "IP Address", .medium),
    (fieldPat ["location", "latitude", "longitude", "geo_location", "coordinates"], "Location", .medium),
    (fieldPat ["gender", "sex", "ethnicity", "race", "religion"], "Demographic", .medium),
    (fieldPat ["medical", "health", "diagnosis", "prescription", "condition"], "Health", .critical),
    (fieldPat ["biometric", "fingerprint", "face_id", "facial", "retina"], "Biometric", .critical) ]

/-- The sensitive tokens shared by all five log patterns:
`\b(email|phone|ssn|password|credit_card|address)`. -/
def logSensTokens : List String :=
  ["email", "phone", "ssn", "password", "credit_card", "address"]

/-- `PREFIX\s*\([^)]*\b(email|phone|ssn|password|credit_card|address)`
where `PREFIX` is the logging-call part of a log pattern. -/
def logPat (callPrefix : Regex) : Regex :=
  seqs [callPrefix, .star .space, .cls (.ch '('), .star (.notCh ')'),
        .wordB, tokenAlt logSensTokens]

/-- `LOG_PATTERNS`, in catalog order. -/
def LOG_PATTERNS : List Regex :=
  [ logPat (.seq (litStr "console.") (tokenAlt ["log", "info", "warn", "error", "debug"])),
    logPat (.seq (litStr "logger.") (tokenAlt ["log", "info", "warn", "error", "debug"])),
    logPat (.seq (litStr "log.") (tokenAlt ["info", "warn", "error", "debug"])),
    logPat (tokenAlt ["print", "println", "printf"]),
    logPat (.seq (litStr "logging.") (tokenAlt ["info", "warn", "error", "debug"])) ]

/-- `UNENCRYPTED_PATTERNS`, in catalog order. The first is
`(\w+)\s*=\s*(request|req)\.(body|form|params|query)\s*\[\s*['"]?(ssn|password|credit_card|card_number)`;
the second is
`(db|database|store|save)\s*\.\s*\w+\s*\([^)]*\b(ssn|password|credit_card)\b[^)]*\)\s*(?!.*encrypt)`. -/
def UNENCRYPTED_PATTERNS : List Regex :=
  [ seqs [plusC .word, .star .space, .cls (.ch '='), .star .space,
          tokenAlt ["request", "req"], .cls (.ch '.'),
          tokenAlt ["body", "form", "params", "query"],
          .star .space, .cls (.ch '['), .star .space,
          optC (.oneOf ['\'', '"']),
          tokenAlt ["ssn", "password", "credit_card", "card_number"]],
    seqs [tokenAlt ["db", "database", "store", "save"],
          .star .space, .cls (.ch '.'), .star .space, plusC .word,
          .star .space, .cls (.ch '('), .star (.notCh ')'),
          .wordB, tokenAlt ["ssn", "password", "credit_card"], .wordB,
          .star (.notCh ')'), .cls (.ch ')'), .star .space,
          .nlook (.seq (.star .any) (litStr "encrypt"))] ]

/-! ## The line scanner -/

/-- Python `str.strip()` on a line (whitespace from both ends). -/
def pyStrip (s : List Char) : List Char :=
  ((s.dropWhile isSpaceChar).reverse.dropWhile isSpaceChar).reverse

/-- The comment-skip test of `scan_file`: the stripped line starts with
`//`, `#` or `*`. -/
def isCommentLine (line : List Char) : Bool :=
  let stripped := pyStrip line
  List.isPrefixOf "//".data stripped || List.isPrefixOf "#".data stripped ||
    List.isPrefixOf "*".data stripped

/-- The body of `scan_file`'s per-line loop: skip comment lines, lowercase
the line, and run the three catalogs in order (field rules, then log
rules, then unencrypted-storage rules), emitting one finding per
matching rule. -/
def scanLine (file : String) (line_num : Nat) (line : List Char) : List Finding :=
  if isCommentLine line then []
  else
    let line_lower := line.map Char.toLower
    let snippet := String.mk ((pyStrip line).take 100)
    (PII_FIELD_PATTERNS.filterMap fun pts =>
      if reSearch pts.1 line_lower then
        some { file := file, line := line_num, severity := pts.2.2,
               category := "pii_field",
               description := "Potential " ++ pts.2.1 ++ " field detected",
               code_snippet := snippet,
               recommendation := "Ensure " ++ pts.2.1 ++ " data is encrypted and access is logged" }
      else none)
    ++ (LOG_PATTERNS.filterMap fun p =>
      if reSearch p line_lower then
        some { file := file, line := line_num, severity := .high,
               category := "pii_in_logs",
               description := "Potential PII being logged",
               code_snippet := snippet,
               recommendation := "Remove PII from log statements or use masking" }
      else none)
    ++ (UNENCRYPTED_PATTERNS.filterMap fun p =>
      if reSearch p line_lower then
        some { file := file, line := line_num, severity := .critical,
               category := "unencrypted_pii",
               description := "Potential unencrypted PII storage",
               code_snippet := snippet,
               recommendation := "Encrypt sensitive data before storage" }
      else none)

/-- `content.split('\n')`. -/
def splitNL : List Char → List (List Char)
  | [] => [[]]
  | c :: cs =>
    if c = '\n' then [] :: splitNL cs
    else
      match splitNL cs with
      | [] => [[c]]
      | l :: ls => (c :: l) :: ls

/-- `for line_num, line in enumerate(lines, n)` applying `scanLine`. -/
def scanLines (file : String) (n : Nat) : List (List Char) → List Finding
  | [] => []
  | l :: ls => scanLine file n l ++ scanLines file (n + 1) ls

/-- `scan_file` on decoded file content (the per-file read is modelled by
passing the content directly; a file whose read fails contributes no
content and hence no findings). Lines are numbered from 1. -/
def scan_file (file : String) (content : List Char) : List Finding :=
  scanLines file 1 (splitNL content)

/-! ## Finding post-processing -/

/-- The deduplication key `(f.file, f.line, f.category)`. -/
def dedupKey (f : Finding) : String × Nat × String :=
  (f.file, f.line, f.category)

/-- The loop of `deduplicate_findings`, with the `seen` set modelled as
the list of keys added so far. -/
def dedupAux (seen : List (String × Nat × String)) : List Finding → List Finding
  | [] => []
  | f :: fs =>
    if seen.contains (dedupKey f) then dedupAux seen fs
    else f :: dedupAux (dedupKey f :: seen) fs

/-- `deduplicate_findings`. -/
def deduplicate_findings (findings : List Finding) : List Finding :=
  dedupAux [] findings

/-- `filter_by_severity`: keep findings whose position in
`['critical', 'high', 'medium', 'low']` is at most the threshold's. -/
def filter_by_severity (findings : List Finding) (min_severity : Severity) : List Finding :=
  findings.filter (fun f => decide (sevRank f.severity ≤ sevRank min_severity))

/-- The boolean comparison realising Python's ascending sort by the key
tuple `(['critical','high','medium','low'].index(f.severity), f.file, f.line)`:
lexicographic non-strict tuple order. -/
def keyLE (a b : Finding) : Bool :=
  decide (sevRank a.severity < sevRank b.severity) ||
    (sevRank a.severity == sevRank b.severity &&
      (decide (a.file < b.file) ||
        (a.file == b.file && decide (a.line ≤ b.line))))

/-- `findings.sort(key=...)` in `main`: a stable ascending sort. -/
def sortFindings (findings : List Finding) : List Finding :=
  findings.mergeSort keyLE

/-! ## Report rendering and the verdict -/

/-- The number of findings with a given severity: the value
`by_severity.get(sev, 0)` of the counting dict in `format_text_report`,
and the per-severity counts of the JSON summary. -/
def countSev (findings : List Finding) (s : Severity) : Nat :=
  findings.countP (fun f => f.severity == s)

/-- The severity iteration order of the report. -/
def sevOrder : List Severity :=
  [.critical, .high, .medium, .low]

/-- The `sev_icon` lookup (total here, since severity is the enum). -/
def sevIcon : Severity → String
  | .critical => "🔴"
  | .high => "🟠"
  | .medium => "🟡"
  | .low => "🔵"

def noIssuesLine : String := "✅ No privacy issues found."

def failLine : String := "❌ PRIVACY SCAN FAILED - Critical/High issues found"

def warnLine : String := "⚠️ PRIVACY SCAN PASSED WITH WARNINGS"

/-- First occurrences of `key`-values, in order: `x` is kept, later
elements with the same key are dropped. Used both for the insertion
order of Python dict keys (`by_file`) and, with `key := dedupKey`, as
the specification-side description of deduplication ("keep the first
occurrence of each `(file,line,category)` key, in emission order"). -/
def firstOccs {α β : Type} [DecidableEq β] (key : α → β) : List α → List α
  | [] => []
  | x :: xs => x :: firstOccs key (xs.filter (fun y => decide (¬ key y = key x)))
termination_by l => l.length
decreasing_by
  simp only [List.length_cons]
  exact Nat.lt_succ_of_le (List.length_filter_le _ _)

/-- The `Summary:` block of the text report. -/
def summaryLines (findings : List Finding) : List String :=
  "Summary:" ::
    (sevOrder.filterMap fun s =>
      if 0 < countSev findings s then
        some ("  " ++ s.upperStr ++ ": " ++ toString (countSev findings s))
      else none)
    ++ [""]

/-- The findings-by-file block: files in sorted key order (the `by_file`
dict's keys, in first-occurrence order, sorted lexicographically);
within a file, findings stably sorted by line. -/
def fileGroupLines (findings : List Finding) : List String :=
  ((firstOccs id (findings.map (fun f => f.file))).mergeSort
      (fun a b => decide (a ≤ b))).flatMap fun fp =>
    ("📄 " ++ fp) ::
      ((findings.filter (fun f => f.file == fp)).mergeSort
          (fun a b => decide (a.line ≤ b.line))).flatMap (fun f =>
        ["  " ++ sevIcon f.severity ++ " Line " ++ toString f.line ++ ": " ++ f.description,
         "     " ++ f.code_snippet,
         "     → " ++ f.recommendation])
      ++ [""]

/-- The final status line of a non-empty text report. -/
def statusLine (findings : List Finding) : String :=
  if 0 < countSev findings .critical || 0 < countSev findings .high then failLine
  else warnLine

/-- The lines of `format_text_report` (the returned string is their
`'\n'.join`; the empty-findings case returns the single success line). -/
def formatTextReportLines (findings : List Finding) : List String :=
  if findings.isEmpty then [noIssuesLine]
  else
    [String.mk (List.replicate 60 '='), "Privacy Scan Results",
     String.mk (List.replicate 60 '='), ""]
    ++ summaryLines findings
    ++ fileGroupLines findings
    ++ [statusLine findings]

/-- `format_text_report`. -/
def format_text_report (findings : List Finding) : String :=
  String.intercalate "\n" (formatTextReportLines findings)

/-- The `passed` field of `format_json_report`:
`all(f.severity not in ('critical', 'high') for f in findings)`. -/
def jsonPassed (findings : List Finding) : Bool :=
  findings.all (fun f => !(f.severity == .critical || f.severity == .high))

/-- `critical_high = sum(1 for f in findings if f.severity in ('critical', 'high'))`
in `main`. -/
def critHighCount (findings : List Finding) : Nat :=
  findings.countP (fun f => f.severity == .critical || f.severity == .high)

/-- The process exit code: `sys.exit(1 if critical_high > 0 else 0)`. -/
def exitCode (findings : List Finding) : Nat :=
  if 0 < critHighCount findings then 1 else 0

/-! ## File selection and the whole run -/

/-- A filesystem path, as its `Path.parts` tuple. -/
structure PyPath where
  parts : List String
deriving DecidableEq, Repr

/-- `Path.name`: the final component. -/
def pathName (p : PyPath) : String :=
  (p.parts.getLast?).getD ""

/-- `Path.suffix`: the final component's extension including the dot,
empty when the name has no dot, ends with its only dot, or starts with
its only dot (as for `.bashrc`). -/
def pathSuffix (p : PyPath) : List Char :=
  let name := (pathName p).data
  let revTail := name.reverse.takeWhile (fun c => decide (¬ c = '.'))
  if revTail.length = name.length then []
  else if revTail.length = 0 then []
  else if revTail.length + 1 = name.length then []
  else '.' :: revTail.reverse

/-- `SCAN_EXTENSIONS`. -/
def SCAN_EXTENSIONS : List String :=
  [".ts", ".tsx", ".js", ".jsx", ".py", ".java", ".cs", ".go", ".rb", ".php",
   ".swift", ".kt", ".scala", ".rs", ".cpp", ".c", ".h"]

/-- `SKIP_DIRS`. -/
def SKIP_DIRS : List String :=
  ["node_modules", "vendor", "venv", ".venv", "__pycache__",
   "dist", "build", ".git", ".svn", "target", "bin", "obj"]

/-- `should_scan_file`: lowercased suffix on the allow-list and no path
segment on the deny-list. -/
def should_scan_file (p : PyPath) : Bool :=
  SCAN_EXTENSIONS.contains (String.mk ((pathSuffix p).map Char.toLower)) &&
    p.parts.all (fun part => !(SKIP_DIRS.contains part))

/-- The filesystem visible to a run: the regular files (with contents)
and the directories. Any other path does not exist or is neither a
regular file nor a directory. -/
structure FileSys where
  files : List (PyPath × List Char)
  dirs : List PyPath

/-- `Path.is_file()` in this filesystem. -/
def FileSys.isFile (fs : FileSys) (p : PyPath) : Bool :=
  fs.files.any (fun e => e.1 == p)

/-- `Path.is_dir()` in this filesystem. -/
def FileSys.isDir (fs : FileSys) (p : PyPath) : Bool :=
  fs.dirs.contains p

/-- Is `q` a proper descendant of `root` (so that `root.rglob('*')`
would enumerate it)? -/
def isDescendant (root q : PyPath) : Bool :=
  List.isPrefixOf root.parts q.parts && decide (root.parts.length < q.parts.length)

/-- `get_files`: a file root yields itself when it passes the scan
predicate; otherwise `root.rglob('*')` is enumerated and its regular
files filtered by the scan predicate. `pathlib`'s glob returns an empty
iterator when the root is not a directory (its selector first checks
`is_dir` and yields nothing otherwise) — in particular a nonexistent
root raises no error and yields no files — so the non-file non-dir case
is the empty list. Only regular files survive the `is_file()` check, so
enumerating `fs.files` suffices. -/
def get_files (fs : FileSys) (root : PyPath) : List PyPath :=
  if fs.isFile root then (if should_scan_file root then [root] else [])
  else if fs.isDir root then
    (fs.files.map Prod.fst).filter (fun p => isDescendant root p && should_scan_file p)
  else []

/-- Content lookup for a regular file. -/
def contentOf (fs : FileSys) (p : PyPath) : List Char :=
  ((fs.files.find? (fun e => e.1 == p)).map Prod.snd).getD []

/-- `str(path)` with `/` separators. -/
def pathStr (p : PyPath) : String :=
  String.intercalate "/" p.parts

/-- The whole run of `main` with `--output text`: scan every selected
file, deduplicate, filter by the minimum severity, sort, and return the
printed report together with the process exit code. -/
def runScan (fs : FileSys) (root : PyPath) (minSev : Severity) : String × Nat :=
  let all_findings :=
    (get_files fs root).flatMap (fun p => scan_file (pathStr p) (contentOf fs p))
  let findings := sortFindings (filter_by_severity (deduplicate_findings all_findings) minSev)
  (format_text_report findings, exitCode findings)

/-! ## Lemmas: deduplication -/

theorem firstOccs_cons {α β : Type} [DecidableEq β] (key : α → β) (x : α) (xs : List α) :
    firstOccs key (x :: xs) = x :: firstOccs key (xs.filter (fun y => decide (¬ key y = key x))) := by
  rw [firstOccs]

theorem mem_firstOccs {α β : Type} [DecidableEq β] (key : α → β) :
    ∀ (l : List α) (x : α), x ∈ firstOccs key l → x ∈ l := by
  intro l
  induction l using firstOccs.induct key with
  | case1 => intro x h; simp [firstOccs] at h
  | case2 a as ih =>
    intro x h
    rw [firstOccs_cons] at h
    rcases List.mem_cons.1 h with h | h
    · exact h ▸ List.mem_cons_self _ _
    · exact List.mem_cons_of_mem _ (List.mem_of_mem_filter (ih x h))

theorem firstOccs_sublist {α β : Type} [DecidableEq β] (key : α → β) :
    ∀ (l : List α), List.Sublist (firstOccs key l) l := by
  intro l
  induction l using firstOccs.induct key with
  | case1 => simp [firstOccs]
  | case2 a as ih =>
    rw [firstOccs_cons]
    exact (ih.trans (List.filter_sublist as)).cons₂ a

theorem firstOccs_pairwise {α β : Type} [DecidableEq β] (key : α → β) :
    ∀ (l : List α), (firstOccs key l).Pairwise (fun a b => key a ≠ key b) := by
  intro l
  induction l using firstOccs.induct key with
  | case1 => simp [firstOccs]
  | case2 a as ih =>
    rw [firstOccs_cons]
    refine List.pairwise_cons.2 ⟨?_, ih⟩
    intro b hb
    have hb' := mem_firstOccs _ _ _ hb
    have := List.of_mem_filter hb'
    simp only [decide_eq_true_eq] at this
    exact fun h => this h.symm

theorem firstOccs_of_pairwise {α β : Type} [DecidableEq β] (key : α → β) :
    ∀ (l : List α), l.Pairwise (fun a b => key a ≠ key b) → firstOccs key l = l := by
  intro l
  induction l with
  | nil => simp [firstOccs]
  | cons a as ih =>
    intro h
    rcases List.pairwise_cons.1 h with ⟨ha, htl⟩
    rw [firstOccs_cons]
    have : as.filter (fun y => decide (¬ key y = key a)) = as := by
      refine List.filter_eq_self.2 ?_
      intro b hb
      simpa using fun h' => ha b hb h'.symm
    rw [this, ih htl]

theorem bneq_decide (a b : String × Nat × String) : (!(a == b)) = decide (¬ a = b) := by
  cases h : a == b
  · simp [beq_eq_false_iff_ne.1 h]
  · simp [beq_iff_eq.1 h]

theorem dedupAux_eq (fs : List Finding) :
    ∀ seen, dedupAux seen fs
      = firstOccs dedupKey (fs.filter (fun f => !(seen.contains (dedupKey f)))) := by
  induction fs with
  | nil => intro seen; simp [dedupAux, firstOccs]
  | cons f fs ih =>
    intro seen
    cases h : seen.contains (dedupKey f) with
    | true =>
      simp only [dedupAux, h, if_true, List.filter_cons, Bool.not_true, Bool.false_eq_true,
        if_false]
      exact ih seen
    | false =>
      simp only [dedupAux, h, Bool.false_eq_true, if_false, List.filter_cons, Bool.not_false,
        if_true, firstOccs_cons, List.filter_filter]
      rw [ih (dedupKey f :: seen)]
      congr 1
      refine congrArg (firstOccs dedupKey) ?_
      refine List.filter_congr ?_
      intro g _
      simp only [List.contains_cons, Bool.not_or, bneq_decide]

theorem deduplicate_eq_firstOccs (fs : List Finding) :
    deduplicate_findings fs = firstOccs dedupKey fs := by
  rw [deduplicate_findings, dedupAux_eq]
  simp

/-- Claim C4: the three conjuncts — deduplication returns the first-occurrence
subsequence, it is idempotent, and no two outputs share a key. -/
theorem deduplicate_spec (fs : List Finding) :
    deduplicate_findings fs = firstOccs dedupKey fs
    ∧ deduplicate_findings (deduplicate_findings fs) = deduplicate_findings fs
    ∧ (deduplicate_findings fs).Pairwise (fun a b => dedupKey a ≠ dedupKey b)
    ∧ List.Sublist (deduplicate_findings fs) fs := by
  have h1 := deduplicate_eq_firstOccs fs
  have hpw : (deduplicate_findings fs).Pairwise (fun a b => dedupKey a ≠ dedupKey b) := by
    rw [h1]; exact firstOccs_pairwise _ _
  refine ⟨h1, ?_, hpw, ?_⟩
  · rw [deduplicate_eq_firstOccs (deduplicate_findings fs),
      firstOccs_of_pairwise _ _ hpw]
  · rw [h1]; exact firstOccs_sublist _ _

/-! ## Lemmas: severity filtering -/

/-- Claim C5: the filter retains exactly the findings ranked at or above the
threshold (rank at most the threshold's rank), it is idempotent, and the
`low` threshold filters nothing. -/
theorem filter_by_severity_spec (fs : List Finding) (s : Severity) :
    (∀ f, f ∈ filter_by_severity fs s ↔ f ∈ fs ∧ sevRank f.severity ≤ sevRank s)
    ∧ filter_by_severity (filter_by_severity fs s) s = filter_by_severity fs s
    ∧ filter_by_severity fs .low = fs := by
  refine ⟨?_, ?_, ?_⟩
  · intro f
    simp [filter_by_severity, List.mem_filter]
  · simp [filter_by_severity, List.filter_filter]
  · refine List.filter_eq_self.2 ?_
    intro f _
    cases h : f.severity <;> simp [sevRank, h]

/-! ## Lemmas: the sort -/

theorem keyLE_iff (a b : Finding) : keyLE a b = true ↔
    sevRank a.severity < sevRank b.severity
    ∨ (sevRank a.severity = sevRank b.severity ∧
        (a.file < b.file ∨ (a.file = b.file ∧ a.line ≤ b.line))) := by
  simp [keyLE, Bool.or_eq_true, Bool.and_eq_true, decide_eq_true_eq, beq_iff_eq]

theorem keyLE_total (a b : Finding) : keyLE a b || keyLE b a := by
  rw [Bool.or_eq_true, keyLE_iff, keyLE_iff]
  rcases Nat.lt_trichotomy (sevRank a.severity) (sevRank b.severity) with h | h | h
  · exact Or.inl (Or.inl h)
  · rcases lt_trichotomy a.file b.file with hf | hf | hf
    · exact Or.inl (Or.inr ⟨h, Or.inl hf⟩)
    · rcases Nat.le_total a.line b.line with hl | hl
      · exact Or.inl (Or.inr ⟨h, Or.inr ⟨hf, hl⟩⟩)
      · exact Or.inr (Or.inr ⟨h.symm, Or.inr ⟨hf.symm, hl⟩⟩)
    · exact Or.inr (Or.inr ⟨h.symm, Or.inl hf⟩)
  · exact Or.inr (Or.inl h)

theorem keyLE_trans (a b c : Finding) (hab : keyLE a b) (hbc : keyLE b c) : keyLE a c := by
  rw [keyLE_iff] at hab hbc ⊢
  rcases hab with h1 | ⟨h1, h1'⟩
  · rcases hbc with h2 | ⟨h2, _⟩
    · exact Or.inl (h1.trans h2)
    · exact Or.inl (h2 ▸ h1)
  · rcases hbc with h2 | ⟨h2, h2'⟩
    · exact Or.inl (h1 ▸ h2)
    · refine Or.inr ⟨h1.trans h2, ?_⟩
      rcases h1' with hf1 | ⟨hf1, hl1⟩
      · rcases h2' with hf2 | ⟨hf2, _⟩
        · exact Or.inl (hf1.trans hf2)
        · exact Or.inl (hf2 ▸ hf1)
      · rcases h2' with hf2 | ⟨hf2, hl2⟩
        · exact Or.inl (hf1 ▸ hf2)
        · exact Or.inr ⟨hf1.trans hf2, hl1.trans hl2⟩

/-- Findings with equal sort keys compare `keyLE` in both directions. -/
theorem keyLE_of_key_eq {a b : Finding}
    (h : (sevRank a.severity, a.file, a.line) = (sevRank b.severity, b.file, b.line)) :
    keyLE a b = true := by
  rw [keyLE_iff]
  rcases Prod.mk.injEq .. ▸ h with ⟨h1, h23⟩
  rcases Prod.mk.injEq .. ▸ h23 with ⟨h2, h3⟩
  exact Or.inr ⟨h1, Or.inr ⟨h2, Nat.le_of_eq h3⟩⟩

/-- Claim C6: the sort's output is pairwise ordered by the key
`(severity rank, file, line)` — severities non-decreasing, files
non-decreasing within a severity, lines non-decreasing within a
severity and file — it is stable (the subsequence of findings with any
fixed key is unchanged), and it is a permutation of the input. -/
theorem sortFindings_spec (fs : List Finding) :
    (sortFindings fs).Pairwise (fun a b =>
        sevRank a.severity ≤ sevRank b.severity
        ∧ (sevRank a.severity = sevRank b.severity → a.file ≤ b.file)
        ∧ (sevRank a.severity = sevRank b.severity → a.file = b.file → a.line ≤ b.line))
    ∧ (∀ k : Nat × String × Nat,
        (sortFindings fs).filter (fun f => (sevRank f.severity, f.file, f.line) == k)
          = fs.filter (fun f => (sevRank f.severity, f.file, f.line) == k))
    ∧ (sortFindings fs).Perm fs := by
  refine ⟨?_, ?_, List.mergeSort_perm fs keyLE⟩
  · have hs := List.sorted_mergeSort
      (fun a b c => keyLE_trans a b c) keyLE_total fs
    refine hs.imp ?_
    intro a b hab
    rw [keyLE_iff] at hab
    refine ⟨?_, ?_, ?_⟩
    · rcases hab with h | ⟨h, _⟩
      · exact Nat.le_of_lt h
      · exact Nat.le_of_eq h
    · intro hr
      rcases hab with h | ⟨_, hf | ⟨hf, _⟩⟩
      · exact absurd hr (Nat.ne_of_lt h)
      · exact le_of_lt hf
      · exact le_of_eq hf
    · intro hr hf
      rcases hab with h | ⟨_, hf' | ⟨_, hl⟩⟩
      · exact absurd hr (Nat.ne_of_lt h)
      · exact absurd hf (ne_of_lt hf')
      · exact hl
  · intro k
    set p : Finding → Bool := fun f => (sevRank f.severity, f.file, f.line) == k with hp
    have hkey : ∀ f ∈ fs.filter p, (sevRank f.severity, f.file, f.line) = k := by
      intro f hf
      have := List.of_mem_filter hf
      rw [hp] at this
      exact beq_iff_eq.1 this
    have hpw : (fs.filter p).Pairwise (fun a b => keyLE a b = true) := by
      refine List.pairwise_of_forall_mem_list ?_
      intro a ha b hb
      exact keyLE_of_key_eq ((hkey a ha).trans (hkey b hb).symm)
    have hsub : List.Sublist (fs.filter p) (sortFindings fs) :=
      List.sublist_mergeSort (fun a b c => keyLE_trans a b c) keyLE_total hpw
        (List.filter_sublist fs)
    have hsub2 : List.Sublist (fs.filter p) ((sortFindings fs).filter p) := by
      have : (fs.filter p).filter p = fs.filter p := by
        refine List.filter_eq_self.2 ?_
        intro f hf
        exact List.of_mem_filter hf
      exact this ▸ hsub.filter p
    have hlen : ((sortFindings fs).filter p).length = (fs.filter p).length :=
      (((List.mergeSort_perm fs keyLE).filter p).length_eq)
    exact (hsub2.eq_of_length hlen.symm).symm

/-! ## Lemmas: verdicts and the whole run -/

theorem jsonPassed_iff (fs : List Finding) :
    jsonPassed fs = true ↔ ∀ f ∈ fs, f.severity ≠ .critical ∧ f.severity ≠ .high := by
  simp [jsonPassed, List.all_eq_true, not_or]

theorem critHighCount_eq_zero_iff (fs : List Finding) :
    critHighCount fs = 0 ↔ ∀ f ∈ fs, f.severity ≠ .critical ∧ f.severity ≠ .high := by
  simp [critHighCount, List.countP_eq_zero, not_or]

theorem countSev_eq_zero_iff (fs : List Finding) (s : Severity) :
    countSev fs s = 0 ↔ ∀ f ∈ fs, f.severity ≠ s := by
  simp [countSev, List.countP_eq_zero]

theorem statusLine_eq (fs : List Finding) :
    statusLine fs = if jsonPassed fs then warnLine else failLine := by
  by_cases h : jsonPassed fs = true
  · have h' := (jsonPassed_iff fs).1 h
    have hc : countSev fs .critical = 0 :=
      (countSev_eq_zero_iff fs .critical).2 (fun f hf => ((h' f hf).1))
    have hh : countSev fs .high = 0 :=
      (countSev_eq_zero_iff fs .high).2 (fun f hf => ((h' f hf).2))
    simp [statusLine, hc, hh, h]
  · have hb : jsonPassed fs = false := Bool.not_eq_true _ ▸ h
    rw [jsonPassed_iff] at h
    push_neg at h
    rcases h with ⟨f, hf, hsev⟩
    have : 0 < countSev fs .critical ∨ 0 < countSev fs .high := by
      by_cases hc : f.severity = .critical
      · left
        rcases Nat.eq_zero_or_pos (countSev fs .critical) with h0 | h0
        · exact absurd hc (((countSev_eq_zero_iff fs .critical).1 h0) f hf)
        · exact h0
      · right
        have hh := hsev hc
        rcases Nat.eq_zero_or_pos (countSev fs .high) with h0 | h0
        · exact absurd hh (((countSev_eq_zero_iff fs .high).1 h0) f hf)
        · exact h0
    rcases this with h0 | h0 <;> simp [statusLine, h0, hb]

/-- Claim C2: the structured report's `passed`, the text report's final line,
and the exit code agree, each signalling success exactly when no finding
is critical or high. -/
theorem verdict_agreement (fs : List Finding) :
    (jsonPassed fs = true ↔ exitCode fs = 0)
    ∧ (jsonPassed fs = true ↔ ∀ f ∈ fs, f.severity ≠ .critical ∧ f.severity ≠ .high)
    ∧ (formatTextReportLines fs).getLast?
        = some (if fs.isEmpty then noIssuesLine
                else if jsonPassed fs then warnLine else failLine) := by
  refine ⟨?_, jsonPassed_iff fs, ?_⟩
  · rw [jsonPassed_iff, ← critHighCount_eq_zero_iff]
    constructor
    · intro h
      simp [exitCode, h]
    · intro h
      rcases Nat.eq_zero_or_pos (critHighCount fs) with h0 | h0
      · exact h0
      · simp [exitCode, h0] at h
  · by_cases he : fs.isEmpty
    · simp [formatTextReportLines, he]
    · simp only [formatTextReportLines, he, Bool.false_eq_true, if_false,
        List.getLast?_append, List.getLast?_cons, List.getLast?_nil, statusLine_eq]
      cases jsonPassed fs <;> simp

theorem critHighCount_sortFindings (fs : List Finding) :
    critHighCount (sortFindings fs) = critHighCount fs :=
  (List.mergeSort_perm fs keyLE).countP_eq _

theorem runScan_exit (fs : FileSys) (root : PyPath) (sev : Severity) :
    (runScan fs root sev).2
      = exitCode (filter_by_severity (deduplicate_findings
          ((get_files fs root).flatMap (fun p => scan_file (pathStr p) (contentOf fs p)))) sev) := by
  simp [runScan, exitCode, critHighCount_sortFindings]

/-- A run that selects no files prints the no-issues line and exits 0. -/
theorem runScan_no_files (fs : FileSys) (root : PyPath) (sev : Severity)
    (h : get_files fs root = []) : runScan fs root sev = (noIssuesLine, 0) := by
  simp [runScan, h, deduplicate_findings, dedupAux, filter_by_severity, sortFindings,
    format_text_report, formatTextReportLines, exitCode, critHighCount,
    String.intercalate, String.intercalate.go]

/-! ## The claims about concrete scans and runs -/

/-- Claim C1 (amended): a root path that is neither an existing regular
file nor a directory is not reported as a usage error; `get_files`
yields no files (`rglob` returns an empty iterator for a non-directory
root), so the run prints the no-issues success report and exits with
code 0. -/
theorem nonexistent_root_prints_success (fs : FileSys) (root : PyPath) (sev : Severity)
    (hf : fs.isFile root = false) (hd : fs.isDir root = false) :
    get_files fs root = [] ∧ runScan fs root sev = (noIssuesLine, 0) := by
  have hg : get_files fs root = [] := by
    simp [get_files, hf, hd]
  exact ⟨hg, runScan_no_files fs root sev hg⟩

theorem nonexistent_root_prints_success_witness :
    FileSys.isFile ⟨[], []⟩ ⟨["missing"]⟩ = false
    ∧ FileSys.isDir ⟨[], []⟩ ⟨["missing"]⟩ = false
    ∧ (get_files ⟨[], []⟩ ⟨["missing"]⟩ = []
        ∧ runScan ⟨[], []⟩ ⟨["missing"]⟩ .low = (noIssuesLine, 0)) :=
  ⟨by decide, by decide,
    nonexistent_root_prints_success ⟨[], []⟩ ⟨["missing"]⟩ .low (by decide) (by decide)⟩

/-- Claim C1, counterexample: on a filesystem without the root path
`missing`, the run is not a reported usage error terminating without a
report — it prints the success report and exits with code 0. -/
theorem nonexistent_root_claim_counterexample :
    FileSys.isFile ⟨[], []⟩ ⟨["missing"]⟩ = false
    ∧ FileSys.isDir ⟨[], []⟩ ⟨["missing"]⟩ = false
    ∧ runScan ⟨[], []⟩ ⟨["missing"]⟩ .low = (noIssuesLine, 0) :=
  ⟨by decide, by decide, runScan_no_files ⟨[], []⟩ ⟨["missing"]⟩ .low (by decide)⟩

/-- Claim C3: `app.py` has an allow-listed extension and no denied path
segment; scanning the file content `db.save(ssn)` yields an
`unencrypted_pii` finding at severity `critical` on line 1; and the run
restricted to that file exits with code 1. -/
theorem db_save_ssn_critical :
    should_scan_file ⟨["app.py"]⟩ = true
    ∧ ((scan_file "app.py" "db.save(ssn)".data).any
        (fun f => f.category == "unencrypted_pii" && f.severity == Severity.critical
          && f.line == 1)) = true
    ∧ (runScan ⟨[(⟨["app.py"]⟩, "db.save(ssn)".data)], []⟩ ⟨["app.py"]⟩ .low).2 = 1 := by
  refine ⟨by decide, by decide, ?_⟩
  rw [runScan_exit]
  decide

/-- Claim C7: a line whose stripped form starts with `//`, `#` or `*`
produces no findings, whatever it contains; hence a file all of whose
lines are such comment lines produces no findings at all. -/
theorem comment_lines_yield_nothing :
    (∀ (file : String) (n : Nat) (line : List Char),
        isCommentLine line = true → scanLine file n line = [])
    ∧ (∀ (file : String) (content : List Char),
        (∀ l ∈ splitNL content, isCommentLine l = true) → scan_file file content = []) := by
  have h1 : ∀ (file : String) (n : Nat) (line : List Char),
      isCommentLine line = true → scanLine file n line = [] := by
    intro file n line h
    simp [scanLine, h]
  refine ⟨h1, ?_⟩
  intro file content hall
  rw [scan_file]
  have : ∀ (ls : List (List Char)) (n : Nat),
      (∀ l ∈ ls, isCommentLine l = true) → scanLines file n ls = [] := by
    intro ls
    induction ls with
    | nil => intro n _; rfl
    | cons l ls ih =>
      intro n h
      have hl := h1 file n l (h l (List.mem_cons_self ..))
      simp [scanLines, hl, ih (n + 1) (fun x hx => h x (List.mem_cons_of_mem _ hx))]
  exact this (splitNL content) 1 hall

theorem comment_lines_yield_nothing_witness :
    scanLine "app.py" 1 "# ssn password".data = []
    ∧ scan_file "app.py" "// email\n  * phone".data = [] :=
  ⟨comment_lines_yield_nothing.1 "app.py" 1 "# ssn password".data (by decide),
   comment_lines_yield_nothing.2 "app.py" "// email\n  * phone".data (by decide)⟩

/-- Claim C8: the Credential field rule matches only at word boundaries
on the lowercased line — `passwordReset` does not fire it, while
`req.body.password` and `user-password` (the token delimited by
non-word characters) fire it at severity critical. -/
theorem credential_word_boundaries :
    ((scanLine "app.py" 1 "x = passwordReset()".data).filter
        (fun f => f.category == "pii_field"
          && f.description == "Potential Credential field detected")) = []
    ∧ ((scanLine "app.py" 1 "req.body.password".data).any
        (fun f => f.category == "pii_field" && f.severity == Severity.critical
          && f.description == "Potential Credential field detected")) = true
    ∧ ((scanLine "app.py" 1 "user-password".data).any
        (fun f => f.category == "pii_field" && f.severity == Severity.critical
          && f.description == "Potential Credential field detected")) = true := by
  exact ⟨by decide, by decide, by decide⟩

/-- Claim C9: the `(?!.*encrypt)` lookahead only inspects the text after
the matched call's closing parenthesis: `db.save(encrypt(ssn))` still
yields the `unencrypted_pii` finding, while trailing text containing
`encrypt` after the closing parenthesis suppresses it. -/
theorem encrypt_lookahead_is_trailing_only :
    ((scanLine "app.py" 1 "db.save(encrypt(ssn))".data).any
        (fun f => f.category == "unencrypted_pii" && f.severity == Severity.critical)) = true
    ∧ ((scanLine "app.py" 1 "db.save(ssn); encrypt()".data).filter
        (fun f => f.category == "unencrypted_pii")) = [] := by
  exact ⟨by decide, by decide⟩

/-- Claim C10: the log rules anchor a word boundary only before the
sensitive token, so `print(emails)` and `console.log(emailAddress)`
yield a `pii_in_logs` finding at severity high even though no field
rule (which needs boundaries on both sides) fires on those lines. -/
theorem log_rules_match_token_prefix :
    ((scanLine "app.py" 1 "print(emails)".data).any
        (fun f => f.category == "pii_in_logs" && f.severity == Severity.high)) = true
    ∧ ((scanLine "app.py" 1 "print(emails)".data).filter
        (fun f => f.category == "pii_field")) = []
    ∧ ((scanLine "app.py" 1 "console.log(emailAddress)".data).any
        (fun f => f.category == "pii_in_logs" && f.severity == Severity.high)) = true
    ∧ ((scanLine "app.py" 1 "console.log(emailAddress)".data).filter
        (fun f => f.category == "pii_field")) = [] := by
  exact ⟨by decide, by decide, by decide, by decide⟩

end PrivacyScan


